import Mathlib

/-!
Shallow embedding of `RegAllocRunner._compile_fn` from
`compiler_opt/rl/regalloc/regalloc_runner.py`, together with the command-line
construction it performs.

Modelling choices:
* Protobuf float values are never computed with by the runner (they are only
  moved around), so the float carrier is modelled as `Int`.
* A `tf.train.SequenceExample` is modelled by the parts the runner touches:
  the `feature_lists` presence bit (`HasField`) and the
  `feature_list` map (a `String`-keyed association list of `FeatureList`s,
  each a list of `Feature`s, each carrying the `float_list.value` sequence).
* The outer log container (`struct_pb2.Struct`) maps keys to byte payloads;
  each payload either decodes (`ParseFromString` succeeds) to a
  `SequenceExample` or raises.  A payload is therefore modelled as
  `Option SequenceExample` (`none` = undecodable bytes).
* The external world of one run (outcome of `start_cancellable_process`,
  content of the log file, result of `tempfile.mkdtemp`, result of the
  opaque collaborator `get_command_line_for_bundle`) is an explicit `RunEnv`
  input.
* Python exceptions are modelled with `Except`; `logging.fatal` (which
  aborts the interpreter, returning nothing to the caller) is a distinct
  `RunResult.fatal` outcome.
* The run is summarised by a `RunTrace` recording whether the temporary
  working directory was created (`tempfile.mkdtemp` executed), whether the
  compiler process was started, whether the working directory was removed
  (`tf.io.gfile.rmtree` in the `finally` block executed), and the result.
-/

/-- `float_list.value` of one `Feature`: the repeated float field,
floats carried as `Int`. -/
structure Feature where
  floatValues : List Int
deriving DecidableEq, Repr

/-- One `FeatureList`: the repeated `feature` field. -/
structure FeatureList where
  features : List Feature
deriving DecidableEq, Repr

/-- The `feature_lists.feature_list` protobuf map, as an association list. -/
structure FeatureLists where
  featureList : List (String × FeatureList)
deriving DecidableEq, Repr

/-- The parts of a `tf.train.SequenceExample` the runner reads:
the `HasField('feature_lists')` bit and the map underneath it. -/
structure SequenceExample where
  hasFeatureLists : Bool
  featureLists : FeatureLists
deriving DecidableEq, Repr

/-- Python-protobuf map read `m[key]` for a message-valued map:
returns the stored entry, or auto-inserts (and returns) a default-constructed
value when the key is absent.  The runner relies on this in
`e.feature_lists.feature_list['reward']`. -/
def pbMapGet (m : List (String × FeatureList)) (k : String) : FeatureList :=
  match m.find? (fun p => p.1 == k) with
  | some p => p.2
  | none => ⟨[]⟩

/-- Plain map lookup (no auto-insert), used to state properties. -/
def pbLookup (e : SequenceExample) (k : String) : Option FeatureList :=
  (e.featureLists.featureList.find? (fun p => p.1 == k)).map (fun p => p.2)

/-- Exceptions the body of `_compile_fn` can raise, plus the process
failure kinds `start_cancellable_process` reports. -/
inductive Failure where
  /-- `compilation_runner.ProcessKilledError`: work was cancelled. -/
  | ProcessKilled
  /-- the compilation timed out. -/
  | ProcessTimedOut
  /-- `subprocess.CalledProcessError`: nonzero exit. -/
  | ProcessFailed
  /-- the log file is missing or `Struct.ParseFromString` on it raised. -/
  | MalformedLog
  /-- `SequenceExample.ParseFromString` (or the base64 decode) raised for
  this key's payload. -/
  | DecodeError (key : String)
  /-- the `IndexError` raised by `feature[-1]` or `value[0]` on an empty
  repeated field during reward extraction. -/
  | IndexError
deriving DecidableEq, Repr

/-- `e.feature_lists.feature_list['reward'].feature[-1].float_list.value[0]`:
the unguarded reward access.  `feature[-1]` on an empty repeated field and
`value[0]` on an empty repeated field both raise `IndexError`; the map
access auto-inserts an empty `FeatureList` when `'reward'` is absent. -/
def extractReward (e : SequenceExample) : Except Failure Int :=
  match (pbMapGet e.featureLists.featureList "reward").features.getLast? with
  | none => .error .IndexError
  | some f =>
    match f.floatValues.head? with
    | none => .error .IndexError
    | some v => .ok v

/-- `del e.feature_lists.feature_list['reward']`: remove the `'reward'`
entry from the map. -/
def delReward (e : SequenceExample) : SequenceExample :=
  { e with
    featureLists :=
      ⟨e.featureLists.featureList.filter (fun p => p.1 != "reward")⟩ }

/-- One iteration of the `for key, value in sequence_example.fields.items()`
loop body: raises (`.error`), skips the key (`.ok none`), or produces the
key's result-map entry (`.ok (some entry)`). -/
def decodeStep (reward_only : Bool) (kv : String × Option SequenceExample) :
    Except Failure (Option (String × (Option SequenceExample × Int))) :=
  match kv.2 with
  | none => .error (.DecodeError kv.1)
  | some e =>
    if e.hasFeatureLists = false then .ok none
    else
      match extractReward e with
      | .error f => .error f
      | .ok r =>
        if reward_only then .ok (some (kv.1, (none, r)))
        else .ok (some (kv.1, (some (delReward e), r)))

/-- The whole per-key loop: processes entries in order; the first raised
exception aborts the loop (the partial `result` dict is discarded). -/
def processEntries (reward_only : Bool) :
    List (String × Option SequenceExample) →
    Except Failure (List (String × (Option SequenceExample × Int)))
  | [] => .ok []
  | kv :: rest =>
    match decodeStep reward_only kv with
    | .error f => .error f
    | .ok none => processEntries reward_only rest
    | .ok (some entry) =>
      (processEntries reward_only rest).map (fun m => entry :: m)

/-- The pure per-entry summary of a successful loop: which result-map entry
(if any) an input entry contributes when no exception is raised. -/
def okEntry (reward_only : Bool) (kv : String × Option SequenceExample) :
    Option (String × (Option SequenceExample × Int)) :=
  match decodeStep reward_only kv with
  | .error _ => none
  | .ok o => o

/-- Outcome the runner reports to the process executor's caller:
what `start_cancellable_process` did. -/
inductive ProcOutcome where
  | success
  | killed
  | timedOut
  | failed
deriving DecidableEq, Repr

/-- The external world of one run. `bundleArgs` is the value of the opaque
collaborator `compilation_runner.get_command_line_for_bundle`;
`logContent` is what reading and `Struct`-parsing the log file yields on a
successful compile (`none`: missing/unparseable file, `some entries`: the
container's key/payload pairs in iteration order); `workingDir` is what
`tempfile.mkdtemp` returns. -/
structure RunEnv where
  workingDir : String
  bundleArgs : List String
  procOutcome : ProcOutcome
  logContent : Option (List (String × Option SequenceExample))
deriving DecidableEq, Repr

/-- Configuration of the `RegAllocRunner` instance. -/
structure RunnerConfig where
  clang_path : String
  launcher_path : Option String
deriving DecidableEq, Repr

/-- What `_compile_fn` produces: a returned result dict, a raised exception,
or an interpreter abort (`logging.fatal`, nothing returned at all). -/
inductive RunResult where
  | ok (m : List (String × (Option SequenceExample × Int)))
  | error (f : Failure)
  | fatal
deriving DecidableEq, Repr

/-- Observable trace of one `_compile_fn` run: resource events, the argv
handed to the process executor (when one was built), and the result. -/
structure RunTrace where
  workingAreaCreated : Bool
  processStarted : Bool
  workingAreaRemoved : Bool
  commandLine : Option (List String)
  result : RunResult
deriving DecidableEq, Repr

/-- The command line `_compile_fn` assembles (lines 87–101 of the source):
optional launcher, clang, the opaque bundle arguments, the fixed `-mllvm`
instrumentation flags including the log-output flag, `-o` and the output
path, then — iff a (truthy) policy path was given — the policy flag. -/
def buildCommandLine (cfg : RunnerConfig) (bundleArgs : List String)
    (log_path output_native_path tf_policy_path : String) : List String :=
  let launcherPart : List String :=
    match cfg.launcher_path with
    | some l => [l]
    | none => []
  let base :=
    launcherPart ++ [cfg.clang_path] ++ bundleArgs ++
      ["-mllvm", "-thinlto-assume-merged", "-mllvm",
       "-regalloc-enable-advisor=development", "-mllvm",
       "-regalloc-training-log=" ++ log_path, "-o", output_native_path]
  if tf_policy_path != "" then
    base ++ ["-mllvm", "-regalloc-model=" ++ tf_policy_path]
  else base

/-- The body of the `try` block after the command line is built: the
process run (`start_cancellable_process`), the log read and `Struct` parse,
then the per-key loop. -/
def runBody (reward_only : Bool) (env : RunEnv) :
    Except Failure (List (String × (Option SequenceExample × Int))) :=
  match env.procOutcome with
  | .killed => .error .ProcessKilled
  | .timedOut => .error .ProcessTimedOut
  | .failed => .error .ProcessFailed
  | .success =>
    match env.logContent with
    | none => .error .MalformedLog
    | some entries => processEntries reward_only entries

/-- `RegAllocRunner._compile_fn`.  Faithful control flow:
1. `tempfile.mkdtemp()` runs first (WorkingArea created unconditionally);
2. the arity check runs next, `logging.fatal` on a tuple that is neither
   2 nor 3 long — outside the `try`, so nothing is cleaned up there;
3. the `try` block builds the command line, runs the process, parses the
   log and loops over its entries;
4. the `finally` block removes the working directory on every path through
   the `try` block. -/
def compileFn (cfg : RunnerConfig) (file_paths : List String)
    (tf_policy_path : String) (reward_only : Bool) (env : RunEnv) :
    RunTrace :=
  if file_paths.length = 3 ∨ file_paths.length = 2 then
    { workingAreaCreated := true
      processStarted := true
      workingAreaRemoved := true
      commandLine := some (buildCommandLine cfg env.bundleArgs
        (env.workingDir ++ "/log") (env.workingDir ++ "/native")
        tf_policy_path)
      result :=
        match runBody reward_only env with
        | .ok m => .ok m
        | .error f => .error f }
  else
    { workingAreaCreated := true
      processStarted := false
      workingAreaRemoved := false
      commandLine := none
      result := .fatal }

/-- Spec-side reading of the extracted reward, stated over the original
trace without protobuf auto-insertion: the scalar of the last entry of the
`"reward"` feature list. -/
def lastRewardOfTrace (e : SequenceExample) : Option Int :=
  (pbLookup e "reward").bind fun fl =>
    fl.features.getLast?.bind fun f => f.floatValues.head?

/-- Decidable prefix test on strings, by their character lists. -/
def hasStrPre (pre s : String) : Bool := pre.data.isPrefixOf s.data

/-- An argv element is a log-output flag when it starts with
`-regalloc-training-log=`. -/
def isLogFlag (s : String) : Bool := hasStrPre "-regalloc-training-log=" s

/-- An argv element is a policy flag when it starts with
`-regalloc-model=`. -/
def isModelFlag (s : String) : Bool := hasStrPre "-regalloc-model=" s

/-- Sample decodable trace: an observation feature list and a two-step
reward feature list whose last entry carries the value 7. -/
def goodTrace : SequenceExample :=
  ⟨true, ⟨[("obs", ⟨[⟨[1, 2]⟩]⟩), ("reward", ⟨[⟨[3]⟩, ⟨[7]⟩]⟩)]⟩⟩

/-- Sample trace with no attached feature-list data
(`HasField('feature_lists')` is false). -/
def noFeatureListsTrace : SequenceExample := ⟨false, ⟨[]⟩⟩

/-- Sample trace whose reward feature list is present but empty. -/
def emptyRewardTrace : SequenceExample := ⟨true, ⟨[("reward", ⟨[]⟩)]⟩⟩

/-- Sample trace with feature-list data but no `"reward"` feature list. -/
def noRewardTrace : SequenceExample := ⟨true, ⟨[("obs", ⟨[⟨[1]⟩]⟩)]⟩⟩

/-! ### Structural lemmas about the embedding -/

theorem pbMapGet_of_lookup_some (e : SequenceExample) (k : String)
    (fl : FeatureList) (h : pbLookup e k = some fl) :
    pbMapGet e.featureLists.featureList k = fl := by
  unfold pbLookup at h
  unfold pbMapGet
  cases hf : e.featureLists.featureList.find? (fun p => p.1 == k) with
  | none => rw [hf] at h; simp at h
  | some p => rw [hf] at h; simp at h; simp [h]

theorem pbMapGet_of_lookup_none (e : SequenceExample) (k : String)
    (h : pbLookup e k = none) :
    pbMapGet e.featureLists.featureList k = ⟨[]⟩ := by
  unfold pbLookup at h
  unfold pbMapGet
  cases hf : e.featureLists.featureList.find? (fun p => p.1 == k) with
  | none => simp
  | some p => rw [hf] at h; simp at h

theorem extractReward_of_lookup_none (e : SequenceExample)
    (h : pbLookup e "reward" = none) :
    extractReward e = .error .IndexError := by
  unfold extractReward
  rw [pbMapGet_of_lookup_none e "reward" h]
  rfl

theorem extractReward_of_empty_list (e : SequenceExample) (fl : FeatureList)
    (h : pbLookup e "reward" = some fl) (hempty : fl.features = []) :
    extractReward e = .error .IndexError := by
  unfold extractReward
  rw [pbMapGet_of_lookup_some e "reward" fl h, hempty]
  rfl

theorem lastRewardOfTrace_of_extract (e : SequenceExample) (r : Int)
    (h : extractReward e = .ok r) : lastRewardOfTrace e = some r := by
  unfold extractReward at h
  unfold lastRewardOfTrace
  cases hl : pbLookup e "reward" with
  | none =>
    rw [pbMapGet_of_lookup_none e "reward" hl] at h
    simp at h
  | some fl =>
    rw [pbMapGet_of_lookup_some e "reward" fl hl] at h
    cases hlast : fl.features.getLast? with
    | none => rw [hlast] at h; simp at h
    | some f =>
      rw [hlast] at h
      cases hh : f.floatValues.head? with
      | none => simp [hh] at h
      | some v =>
        simp [hh] at h
        simp [hlast, hh, h]

theorem pbLookup_delReward (e : SequenceExample) :
    pbLookup (delReward e) "reward" = none := by
  unfold pbLookup delReward
  have hfind : (e.featureLists.featureList.filter
      (fun p => p.1 != "reward")).find? (fun p => p.1 == "reward") = none := by
    induction e.featureLists.featureList with
    | nil => simp
    | cons p rest ih =>
      by_cases hp : p.1 = "reward"
      · simp [List.filter_cons, hp, ih]
      · have h1 : (p.1 != "reward") = true := by simp [hp]
        have h2 : (p.1 == "reward") = false := by simp [hp]
        simp only [List.filter_cons, h1, if_true, List.find?, h2]
        exact ih
  rw [hfind]
  rfl

theorem decodeStep_none_payload (ro : Bool) (k : String) :
    decodeStep ro (k, none) = .error (.DecodeError k) := rfl

theorem decodeStep_skip (ro : Bool) (k : String) (e : SequenceExample)
    (h : e.hasFeatureLists = false) :
    decodeStep ro (k, some e) = .ok none := by
  unfold decodeStep
  simp [h]

theorem decodeStep_full (k : String) (e : SequenceExample) (r : Int)
    (hfl : e.hasFeatureLists = true) (hr : extractReward e = .ok r) :
    decodeStep false (k, some e) = .ok (some (k, (some (delReward e), r))) := by
  unfold decodeStep
  simp [hfl, hr]

theorem decodeStep_rewardOnly (k : String) (e : SequenceExample) (r : Int)
    (hfl : e.hasFeatureLists = true) (hr : extractReward e = .ok r) :
    decodeStep true (k, some e) = .ok (some (k, (none, r))) := by
  unfold decodeStep
  simp [hfl, hr]

theorem decodeStep_some_key (ro : Bool) (kv : String × Option SequenceExample)
    (out : String × (Option SequenceExample × Int))
    (h : decodeStep ro kv = .ok (some out)) : out.1 = kv.1 := by
  rcases kv with ⟨k, payload⟩
  cases payload with
  | none => rw [decodeStep_none_payload] at h; cases h
  | some e =>
    unfold decodeStep at h
    by_cases hfl : e.hasFeatureLists = false
    · simp [hfl] at h
    · simp [hfl] at h
      cases hr : extractReward e with
      | error f => rw [hr] at h; cases h
      | ok r =>
        rw [hr] at h
        cases ro with
        | false => simp at h; rw [← h]
        | true => simp at h; rw [← h]

theorem decodeStep_rewardOnly_none (kv : String × Option SequenceExample)
    (out : String × (Option SequenceExample × Int))
    (h : decodeStep true kv = .ok (some out)) : out.2.1 = none := by
  rcases kv with ⟨k, payload⟩
  cases payload with
  | none => rw [decodeStep_none_payload] at h; cases h
  | some e =>
    unfold decodeStep at h
    by_cases hfl : e.hasFeatureLists = false
    · simp [hfl] at h
    · simp [hfl] at h
      cases hr : extractReward e with
      | error f => rw [hr] at h; cases h
      | ok r =>
        rw [hr] at h
        simp at h
        rw [← h]

theorem processEntries_ok_eq (ro : Bool)
    (l : List (String × Option SequenceExample)) :
    ∀ m, processEntries ro l = .ok m → m = l.filterMap (okEntry ro) := by
  induction l with
  | nil =>
    intro m h
    simp [processEntries] at h
    simp [← h]
  | cons kv rest ih =>
    intro m h
    rw [processEntries] at h
    cases hd : decodeStep ro kv with
    | error f =>
      rw [hd] at h
      cases h
    | ok o =>
      rw [hd] at h
      cases o with
      | none =>
        have hm := ih m h
        simp [List.filterMap_cons, okEntry, hd, hm]
      | some entry =>
        cases hrest : processEntries ro rest with
        | error g =>
          rw [hrest] at h
          simp [Except.map] at h
        | ok m2 =>
          rw [hrest] at h
          simp [Except.map] at h
          have hm2 := ih m2 hrest
          simp [List.filterMap_cons, okEntry, hd, ← h, hm2]

theorem processEntries_error_of_mem (ro : Bool)
    (l : List (String × Option SequenceExample))
    (kv : String × Option SequenceExample) (hmem : kv ∈ l)
    (f : Failure) (hf : decodeStep ro kv = .error f) :
    ∃ g, processEntries ro l = .error g := by
  induction l with
  | nil => cases hmem
  | cons a rest ih =>
    rcases List.mem_cons.mp hmem with heq | htail
    · exact ⟨f, by rw [processEntries, ← heq, hf]⟩
    · cases hd : decodeStep ro a with
      | error g => exact ⟨g, by rw [processEntries, hd]⟩
      | ok o =>
        obtain ⟨g, hg⟩ := ih htail
        cases o with
        | none => exact ⟨g, by rw [processEntries, hd]; exact hg⟩
        | some entry =>
          exact ⟨g, by rw [processEntries, hd, hg]; rfl⟩

theorem nodupKeys_eq {α : Type} (l : List (String × α))
    (hnd : (l.map Prod.fst).Nodup) (k : String) (a b : α)
    (ha : (k, a) ∈ l) (hb : (k, b) ∈ l) : a = b := by
  induction l with
  | nil => cases ha
  | cons p rest ih =>
    rw [List.map_cons, List.nodup_cons] at hnd
    rcases List.mem_cons.mp ha with ha1 | ha2
    · rcases List.mem_cons.mp hb with hb1 | hb2
      · rw [← ha1] at hb1
        exact (Prod.mk.injEq _ _ _ _ ▸ hb1).2.symm
      · exfalso
        apply hnd.1
        have : Prod.fst (k, b) ∈ rest.map Prod.fst :=
          List.mem_map_of_mem Prod.fst hb2
        rw [← ha1]
        exact this
    · rcases List.mem_cons.mp hb with hb1 | hb2
      · exfalso
        apply hnd.1
        have : Prod.fst (k, a) ∈ rest.map Prod.fst :=
          List.mem_map_of_mem Prod.fst ha2
        rw [← hb1]
        exact this
      · exact ih hnd.2 ha2 hb2

theorem runBody_ok (ro : Bool) (env : RunEnv)
    (m : List (String × (Option SequenceExample × Int)))
    (h : runBody ro env = .ok m) :
    env.procOutcome = .success ∧
    ∃ entries, env.logContent = some entries ∧
      processEntries ro entries = .ok m := by
  unfold runBody at h
  cases hp : env.procOutcome with
  | killed => rw [hp] at h; cases h
  | timedOut => rw [hp] at h; cases h
  | failed => rw [hp] at h; cases h
  | success =>
    rw [hp] at h
    cases hl : env.logContent with
    | none => rw [hl] at h; cases h
    | some entries =>
      rw [hl] at h
      exact ⟨rfl, entries, rfl, h⟩

theorem compileFn_valid_arity (cfg : RunnerConfig) (file_paths : List String)
    (tf_policy_path : String) (reward_only : Bool) (env : RunEnv)
    (h : file_paths.length = 3 ∨ file_paths.length = 2) :
    compileFn cfg file_paths tf_policy_path reward_only env =
      { workingAreaCreated := true
        processStarted := true
        workingAreaRemoved := true
        commandLine := some (buildCommandLine cfg env.bundleArgs
          (env.workingDir ++ "/log") (env.workingDir ++ "/native")
          tf_policy_path)
        result :=
          match runBody reward_only env with
          | .ok m => .ok m
          | .error f => .error f } := by
  unfold compileFn
  rw [if_pos h]

theorem compileFn_invalid_arity (cfg : RunnerConfig) (file_paths : List String)
    (tf_policy_path : String) (reward_only : Bool) (env : RunEnv)
    (h3 : file_paths.length ≠ 3) (h2 : file_paths.length ≠ 2) :
    compileFn cfg file_paths tf_policy_path reward_only env =
      { workingAreaCreated := true
        processStarted := false
        workingAreaRemoved := false
        commandLine := none
        result := .fatal } := by
  unfold compileFn
  rw [if_neg (not_or.mpr ⟨h3, h2⟩)]

theorem compileFn_result_ok (cfg : RunnerConfig) (file_paths : List String)
    (tf_policy_path : String) (reward_only : Bool) (env : RunEnv)
    (h : file_paths.length = 3 ∨ file_paths.length = 2)
    (m : List (String × (Option SequenceExample × Int)))
    (hok : (compileFn cfg file_paths tf_policy_path reward_only env).result
       = .ok m) :
    runBody reward_only env = .ok m := by
  rw [compileFn_valid_arity cfg file_paths tf_policy_path reward_only env h]
    at hok
  cases hb : runBody reward_only env with
  | ok m2 =>
    rw [hb] at hok
    simp at hok
    rw [hok]
  | error f =>
    rw [hb] at hok
    simp at hok

theorem compileFn_result_error_of_body (cfg : RunnerConfig)
    (file_paths : List String) (tf_policy_path : String) (reward_only : Bool)
    (env : RunEnv) (h : file_paths.length = 3 ∨ file_paths.length = 2)
    (f : Failure) (hb : runBody reward_only env = .error f) :
    (compileFn cfg file_paths tf_policy_path reward_only env).result
       = .error f := by
  rw [compileFn_valid_arity cfg file_paths tf_policy_path reward_only env h]
  rw [hb]

theorem hasStrPre_append (p t : String) : hasStrPre p (p ++ t) = true := by
  unfold hasStrPre
  rw [String.data_append, List.isPrefixOf_iff_prefix]
  exact List.prefix_append p.data t.data

theorem not_isPrefixOf_append_of_ne (a b c : List Char) (i : Nat)
    (ha : i < a.length) (hb : i < b.length)
    (hne : a.get ⟨i, ha⟩ ≠ b.get ⟨i, hb⟩) : a.isPrefixOf (b ++ c) = false := by
  rw [Bool.eq_false_iff]
  intro h
  rw [List.isPrefixOf_iff_prefix] at h
  have hbc : i < (b ++ c).length := by
    simp only [List.length_append]
    omega
  have h1 : (b ++ c).get ⟨i, hbc⟩ = a.get ⟨i, ha⟩ := by
    simpa using (h.getElem ha).symm
  have h2 : (b ++ c).get ⟨i, hbc⟩ = b.get ⟨i, hb⟩ := by
    simpa using List.getElem_append_left hb
  exact hne (h1 ▸ h2)

theorem isLogFlag_own (l : String) :
    isLogFlag ("-regalloc-training-log=" ++ l) = true := by
  unfold isLogFlag
  exact hasStrPre_append "-regalloc-training-log=" l

theorem isModelFlag_own (p : String) :
    isModelFlag ("-regalloc-model=" ++ p) = true := by
  unfold isModelFlag
  exact hasStrPre_append "-regalloc-model=" p

theorem isLogFlag_modelArg (p : String) :
    isLogFlag ("-regalloc-model=" ++ p) = false := by
  unfold isLogFlag hasStrPre
  rw [String.data_append]
  exact not_isPrefixOf_append_of_ne _ _ _ 10 (by decide) (by decide) (by decide)

theorem isModelFlag_logArg (l : String) :
    isModelFlag ("-regalloc-training-log=" ++ l) = false := by
  unfold isModelFlag hasStrPre
  rw [String.data_append]
  exact not_isPrefixOf_append_of_ne _ _ _ 10 (by decide) (by decide) (by decide)

theorem okEntry_key (ro : Bool) (kv : String × Option SequenceExample)
    (out : String × (Option SequenceExample × Int))
    (h : okEntry ro kv = some out) : out.1 = kv.1 := by
  unfold okEntry at h
  cases hd : decodeStep ro kv with
  | error f => rw [hd] at h; cases h
  | ok o =>
    rw [hd] at h
    cases o with
    | none => cases h
    | some entry =>
      have he : entry = out := by injection h
      exact he ▸ decodeStep_some_key ro kv entry hd

theorem okEntry_rewardOnly_none (kv : String × Option SequenceExample)
    (out : String × (Option SequenceExample × Int))
    (h : okEntry true kv = some out) : out.2.1 = none := by
  unfold okEntry at h
  cases hd : decodeStep true kv with
  | error f => rw [hd] at h; cases h
  | ok o =>
    rw [hd] at h
    cases o with
    | none => cases h
    | some entry =>
      have he : entry = out := by injection h
      exact he ▸ decodeStep_rewardOnly_none kv entry hd

theorem compileFn_result_ok_of_body (cfg : RunnerConfig)
    (file_paths : List String) (tf_policy_path : String) (reward_only : Bool)
    (env : RunEnv) (h : file_paths.length = 3 ∨ file_paths.length = 2)
    (m : List (String × (Option SequenceExample × Int)))
    (hb : runBody reward_only env = .ok m) :
    (compileFn cfg file_paths tf_policy_path reward_only env).result
      = .ok m := by
  rw [compileFn_valid_arity cfg file_paths tf_policy_path reward_only env h]
  rw [hb]

theorem run_aborts_of_step_error (cfg : RunnerConfig)
    (file_paths : List String) (tf_policy_path : String) (reward_only : Bool)
    (env : RunEnv)
    (entries : List (String × Option SequenceExample))
    (kv : String × Option SequenceExample) (f : Failure)
    (harity : file_paths.length = 3 ∨ file_paths.length = 2)
    (hproc : env.procOutcome = .success)
    (hlog : env.logContent = some entries)
    (hmem : kv ∈ entries)
    (hstep : decodeStep reward_only kv = .error f) :
    (∀ m, (compileFn cfg file_paths tf_policy_path reward_only env).result
        ≠ .ok m) ∧
    (∃ g, (compileFn cfg file_paths tf_policy_path reward_only env).result
        = .error g) ∧
    RunTrace.workingAreaRemoved
      (compileFn cfg file_paths tf_policy_path reward_only env) = true := by
  obtain ⟨g, hg⟩ :=
    processEntries_error_of_mem reward_only entries kv hmem f hstep
  have hbody : runBody reward_only env = .error g := by
    unfold runBody
    rw [hproc, hlog]
    exact hg
  have hres := compileFn_result_error_of_body cfg file_paths tf_policy_path
    reward_only env harity g hbody
  refine ⟨?_, ⟨g, hres⟩, ?_⟩
  · intro m hm
    rw [hres] at hm
    cases hm
  · rw [compileFn_valid_arity cfg file_paths tf_policy_path reward_only env
      harity]

/-! ### Claims -/

/-- C1, counterexample: on a length-1 artifact tuple the WorkingArea *is*
created (the temporary directory is made before the arity check), refuting
"no WorkingArea (temporary directory) is ever created on the
arity-violation path". -/
theorem claim_C1_counterexample :
    (compileFn ⟨"clang", none⟩ ["only.bc"] "" false
      ⟨"/tmp/w", [], ProcOutcome.success, some []⟩).workingAreaCreated
      = true := by decide

/-- C1, amended: for every input artifact tuple whose length is neither 2
nor 3, the run aborts fatally before any process is created, but only
*after* the WorkingArea (temporary directory) has been created — and on
that path the WorkingArea is not removed. -/
theorem claim_C1 (cfg : RunnerConfig) (file_paths : List String)
    (tf_policy_path : String) (reward_only : Bool) (env : RunEnv)
    (h3 : file_paths.length ≠ 3) (h2 : file_paths.length ≠ 2) :
    (compileFn cfg file_paths tf_policy_path reward_only env).result
        = .fatal ∧
    (compileFn cfg file_paths tf_policy_path reward_only env).processStarted
        = false ∧
    RunTrace.workingAreaCreated
      (compileFn cfg file_paths tf_policy_path reward_only env) = true ∧
    RunTrace.workingAreaRemoved
      (compileFn cfg file_paths tf_policy_path reward_only env) = false := by
  rw [compileFn_invalid_arity cfg file_paths tf_policy_path reward_only env
    h3 h2]
  exact ⟨rfl, rfl, rfl, rfl⟩

/-- C1, witness: the amended statement at a concrete length-1 tuple. -/
theorem claim_C1_witness :
    (compileFn ⟨"clang", none⟩ ["only.bc"] "" false
        ⟨"/tmp/w", [], ProcOutcome.success, some []⟩).result = .fatal ∧
    (compileFn ⟨"clang", none⟩ ["only.bc"] "" false
        ⟨"/tmp/w", [], ProcOutcome.success, some []⟩).processStarted
        = false ∧
    (compileFn ⟨"clang", none⟩ ["only.bc"] "" false
        ⟨"/tmp/w", [], ProcOutcome.success, some []⟩).workingAreaCreated
        = true ∧
    (compileFn ⟨"clang", none⟩ ["only.bc"] "" false
        ⟨"/tmp/w", [], ProcOutcome.success, some []⟩).workingAreaRemoved
        = false :=
  claim_C1 ⟨"clang", none⟩ ["only.bc"] "" false
    ⟨"/tmp/w", [], ProcOutcome.success, some []⟩ (by decide) (by decide)

/-- C2, counterexample: a container with an undecodable payload under
`"k1"` and a decodable one under `"k2"` makes the whole run fail with the
decode error — the run does not continue and does not return a result for
`"k2"`, refuting "the failure is scoped to that key only ... the run
continues and still returns results for the remaining decodable keys". -/
theorem claim_C2_counterexample :
    (compileFn ⟨"clang", none⟩ ["a.bc", "a.cmd"] "" true
        ⟨"/tmp/w", [], ProcOutcome.success,
         some [("k1", none), ("k2", some goodTrace)]⟩).result
      = .error (.DecodeError "k1") ∧
    (compileFn ⟨"clang", none⟩ ["a.bc", "a.cmd"] "" true
        ⟨"/tmp/w", [], ProcOutcome.success,
         some [("k1", none), ("k2", some goodTrace)]⟩).result
      ≠ .ok [("k2", (none, 7))] := by
  constructor
  · decide
  · decide

/-- C2, amended: for every log container and every key in it whose payload
cannot be decoded as a structured trace, the whole run aborts with a typed
failure (no ResultMap at all is returned, not even for the remaining
decodable keys); the WorkingArea is still removed. -/
theorem claim_C2 (cfg : RunnerConfig) (file_paths : List String)
    (tf_policy_path : String) (reward_only : Bool) (env : RunEnv)
    (entries : List (String × Option SequenceExample)) (k : String)
    (harity : file_paths.length = 3 ∨ file_paths.length = 2)
    (hproc : env.procOutcome = .success)
    (hlog : env.logContent = some entries)
    (hmem : (k, (none : Option SequenceExample)) ∈ entries) :
    (∀ m, (compileFn cfg file_paths tf_policy_path reward_only env).result
        ≠ .ok m) ∧
    (∃ g, (compileFn cfg file_paths tf_policy_path reward_only env).result
        = .error g) ∧
    RunTrace.workingAreaRemoved
      (compileFn cfg file_paths tf_policy_path reward_only env) = true :=
  run_aborts_of_step_error cfg file_paths tf_policy_path reward_only env
    entries (k, none) (.DecodeError k) harity hproc hlog hmem
    (decodeStep_none_payload reward_only k)

/-- C2, witness: the amended statement at a concrete container. -/
theorem claim_C2_witness :
    (∀ m, (compileFn ⟨"clang", none⟩ ["a.bc", "a.cmd"] "" true
        ⟨"/tmp/w", [], ProcOutcome.success,
         some [("k1", none), ("k2", some goodTrace)]⟩).result ≠ .ok m) ∧
    (∃ g, (compileFn ⟨"clang", none⟩ ["a.bc", "a.cmd"] "" true
        ⟨"/tmp/w", [], ProcOutcome.success,
         some [("k1", none), ("k2", some goodTrace)]⟩).result
        = .error g) ∧
    RunTrace.workingAreaRemoved
      (compileFn ⟨"clang", none⟩ ["a.bc", "a.cmd"] "" true
        ⟨"/tmp/w", [], ProcOutcome.success,
         some [("k1", none), ("k2", some goodTrace)]⟩) = true :=
  claim_C2 ⟨"clang", none⟩ ["a.bc", "a.cmd"] "" true
    ⟨"/tmp/w", [], ProcOutcome.success,
     some [("k1", none), ("k2", some goodTrace)]⟩
    [("k1", none), ("k2", some goodTrace)] "k1"
    (by decide) rfl rfl (by decide)

/-- C3: a decoded trace whose reward feature list is present but empty
makes reward extraction raise (the model's `IndexError`, the spec's
`MissingReward`); this aborts the whole run — no ResultMap is returned —
and the WorkingArea is still removed. -/
theorem claim_C3 (cfg : RunnerConfig) (file_paths : List String)
    (tf_policy_path : String) (reward_only : Bool) (env : RunEnv)
    (entries : List (String × Option SequenceExample)) (k : String)
    (e : SequenceExample) (fl : FeatureList)
    (harity : file_paths.length = 3 ∨ file_paths.length = 2)
    (hproc : env.procOutcome = .success)
    (hlog : env.logContent = some entries)
    (hmem : (k, some e) ∈ entries)
    (hfl : e.hasFeatureLists = true)
    (hrw : pbLookup e "reward" = some fl)
    (hempty : fl.features = []) :
    extractReward e = .error .IndexError ∧
    (∀ m, (compileFn cfg file_paths tf_policy_path reward_only env).result
        ≠ .ok m) ∧
    (∃ g, (compileFn cfg file_paths tf_policy_path reward_only env).result
        = .error g) ∧
    RunTrace.workingAreaRemoved
      (compileFn cfg file_paths tf_policy_path reward_only env) = true := by
  have hex : extractReward e = .error .IndexError :=
    extractReward_of_empty_list e fl hrw hempty
  have hstep : decodeStep reward_only (k, some e) = .error .IndexError := by
    unfold decodeStep
    simp [hfl, hex]
  exact ⟨hex, run_aborts_of_step_error cfg file_paths tf_policy_path
    reward_only env entries (k, some e) .IndexError harity hproc hlog hmem
    hstep⟩

/-- C3, witness: a one-key container whose trace has an empty reward
feature list. -/
theorem claim_C3_witness :
    extractReward emptyRewardTrace = .error .IndexError ∧
    (∀ m, (compileFn ⟨"clang", none⟩ ["a.bc", "a.cmd"] "" false
        ⟨"/tmp/w", [], ProcOutcome.success,
         some [("k", some emptyRewardTrace)]⟩).result ≠ .ok m) ∧
    (∃ g, (compileFn ⟨"clang", none⟩ ["a.bc", "a.cmd"] "" false
        ⟨"/tmp/w", [], ProcOutcome.success,
         some [("k", some emptyRewardTrace)]⟩).result = .error g) ∧
    RunTrace.workingAreaRemoved
      (compileFn ⟨"clang", none⟩ ["a.bc", "a.cmd"] "" false
        ⟨"/tmp/w", [], ProcOutcome.success,
         some [("k", some emptyRewardTrace)]⟩) = true :=
  claim_C3 ⟨"clang", none⟩ ["a.bc", "a.cmd"] "" false
    ⟨"/tmp/w", [], ProcOutcome.success, some [("k", some emptyRewardTrace)]⟩
    [("k", some emptyRewardTrace)] "k" emptyRewardTrace ⟨[]⟩
    (by decide) rfl rfl (by decide) (by decide) (by decide) (by decide)

/-- C10: a decoded trace that has feature-list data but no `"reward"`
feature list at all fails the run hard: the protobuf map access
auto-creates an empty feature list and the unguarded `feature[-1]` raises
the very same `IndexError` as a present-but-empty reward list; the key is
never skipped, the whole run returns no ResultMap. -/
theorem claim_C10 (cfg : RunnerConfig) (file_paths : List String)
    (tf_policy_path : String) (reward_only : Bool) (env : RunEnv)
    (entries : List (String × Option SequenceExample)) (k : String)
    (e : SequenceExample)
    (harity : file_paths.length = 3 ∨ file_paths.length = 2)
    (hproc : env.procOutcome = .success)
    (hlog : env.logContent = some entries)
    (hmem : (k, some e) ∈ entries)
    (hfl : e.hasFeatureLists = true)
    (hnorw : pbLookup e "reward" = none) :
    extractReward e = .error .IndexError ∧
    (∀ m, (compileFn cfg file_paths tf_policy_path reward_only env).result
        ≠ .ok m) ∧
    (∃ g, (compileFn cfg file_paths tf_policy_path reward_only env).result
        = .error g) ∧
    RunTrace.workingAreaRemoved
      (compileFn cfg file_paths tf_policy_path reward_only env) = true := by
  have hex : extractReward e = .error .IndexError :=
    extractReward_of_lookup_none e hnorw
  have hstep : decodeStep reward_only (k, some e) = .error .IndexError := by
    unfold decodeStep
    simp [hfl, hex]
  exact ⟨hex, run_aborts_of_step_error cfg file_paths tf_policy_path
    reward_only env entries (k, some e) .IndexError harity hproc hlog hmem
    hstep⟩

/-- C10, witness: a one-key container whose trace has observations but no
reward feature list. -/
theorem claim_C10_witness :
    extractReward noRewardTrace = .error .IndexError ∧
    (∀ m, (compileFn ⟨"clang", none⟩ ["a.bc", "a.cmd"] "" false
        ⟨"/tmp/w", [], ProcOutcome.success,
         some [("k", some noRewardTrace)]⟩).result ≠ .ok m) ∧
    (∃ g, (compileFn ⟨"clang", none⟩ ["a.bc", "a.cmd"] "" false
        ⟨"/tmp/w", [], ProcOutcome.success,
         some [("k", some noRewardTrace)]⟩).result = .error g) ∧
    RunTrace.workingAreaRemoved
      (compileFn ⟨"clang", none⟩ ["a.bc", "a.cmd"] "" false
        ⟨"/tmp/w", [], ProcOutcome.success,
         some [("k", some noRewardTrace)]⟩) = true :=
  claim_C10 ⟨"clang", none⟩ ["a.bc", "a.cmd"] "" false
    ⟨"/tmp/w", [], ProcOutcome.success, some [("k", some noRewardTrace)]⟩
    [("k", some noRewardTrace)] "k" noRewardTrace
    (by decide) rfl rfl (by decide) (by decide) (by decide)

/-- C4: with reward-only mode false, every decodable trace that reaches
the ResultMap is returned with its `"reward"` feature list removed, and the
scalar reward paired with it is the value carried by the last entry of the
`"reward"` feature list of the original trace. -/
theorem claim_C4 (cfg : RunnerConfig) (file_paths : List String)
    (tf_policy_path : String) (env : RunEnv)
    (entries : List (String × Option SequenceExample)) (k : String)
    (e : SequenceExample) (r : Int)
    (m : List (String × (Option SequenceExample × Int)))
    (harity : file_paths.length = 3 ∨ file_paths.length = 2)
    (hlog : env.logContent = some entries)
    (hmem : (k, some e) ∈ entries)
    (hfl : e.hasFeatureLists = true)
    (hr : extractReward e = .ok r)
    (hok : (compileFn cfg file_paths tf_policy_path false env).result
        = .ok m) :
    (k, (some (delReward e), r)) ∈ m ∧
    pbLookup (delReward e) "reward" = none ∧
    lastRewardOfTrace e = some r := by
  have hbody := compileFn_result_ok cfg file_paths tf_policy_path false env
    harity m hok
  obtain ⟨hsucc, entries2, hlog2, hpe⟩ := runBody_ok false env m hbody
  rw [hlog] at hlog2
  have hent : entries2 = entries := by injection hlog2.symm
  rw [hent] at hpe
  have hm := processEntries_ok_eq false entries m hpe
  refine ⟨?_, pbLookup_delReward e, lastRewardOfTrace_of_extract e r hr⟩
  rw [hm]
  apply List.mem_filterMap.mpr
  refine ⟨(k, some e), hmem, ?_⟩
  unfold okEntry
  rw [decodeStep_full k e r hfl hr]

/-- C4, witness: a concrete two-feature-list trace; the returned trace has
the reward list removed and the reward is 7, the last entry's value. -/
theorem claim_C4_witness :
    ("k", (some (delReward goodTrace), (7 : Int)))
        ∈ [("k", (some (delReward goodTrace), (7 : Int)))] ∧
    pbLookup (delReward goodTrace) "reward" = none ∧
    lastRewardOfTrace goodTrace = some 7 :=
  claim_C4 ⟨"clang", none⟩ ["a.bc", "a.cmd"] "" 
    ⟨"/tmp/w", [], ProcOutcome.success, some [("k", some goodTrace)]⟩
    [("k", some goodTrace)] "k" goodTrace 7
    [("k", (some (delReward goodTrace), (7 : Int)))]
    (by decide) rfl (by decide) (by decide) rfl (by decide)

/-- C5: whenever a run returns anything to the caller — a result map on
success or a raised failure (decode failure, process failure, timeout,
cancellation) — the WorkingArea was created and was recursively removed
before the return.  (The only path that does not remove it is the
`logging.fatal` arity abort, which returns nothing to the caller.) -/
theorem claim_C5 (cfg : RunnerConfig) (file_paths : List String)
    (tf_policy_path : String) (reward_only : Bool) (env : RunEnv)
    (hret : (compileFn cfg file_paths tf_policy_path reward_only env).result
        ≠ .fatal) :
    RunTrace.workingAreaCreated
      (compileFn cfg file_paths tf_policy_path reward_only env) = true ∧
    RunTrace.workingAreaRemoved
      (compileFn cfg file_paths tf_policy_path reward_only env) = true := by
  by_cases h : file_paths.length = 3 ∨ file_paths.length = 2
  · rw [compileFn_valid_arity cfg file_paths tf_policy_path reward_only env h]
    exact ⟨rfl, rfl⟩
  · exfalso
    apply hret
    push_neg at h
    rw [compileFn_invalid_arity cfg file_paths tf_policy_path reward_only env
      h.1 h.2]

/-- C5, witness: the cancellation exit path at a concrete request. -/
theorem claim_C5_witness :
    RunTrace.workingAreaCreated
      (compileFn ⟨"clang", none⟩ ["a.bc", "a.cmd"] "" false
        ⟨"/tmp/w", [], ProcOutcome.killed, none⟩) = true ∧
    RunTrace.workingAreaRemoved
      (compileFn ⟨"clang", none⟩ ["a.bc", "a.cmd"] "" false
        ⟨"/tmp/w", [], ProcOutcome.killed, none⟩) = true :=
  claim_C5 ⟨"clang", none⟩ ["a.bc", "a.cmd"] "" false
    ⟨"/tmp/w", [], ProcOutcome.killed, none⟩ (by decide)

/-- C6: for every run with a valid artifact tuple, the caller observes
either a single typed failure, or a ResultMap that is complete — it is
exactly the per-key summary of *all* entries of the decoded log container;
never a partially-filled map together with an error. -/
theorem claim_C6 (cfg : RunnerConfig) (file_paths : List String)
    (tf_policy_path : String) (reward_only : Bool) (env : RunEnv)
    (harity : file_paths.length = 3 ∨ file_paths.length = 2) :
    (∃ f, (compileFn cfg file_paths tf_policy_path reward_only env).result
        = .error f) ∨
    (∃ entries, env.logContent = some entries ∧
      (compileFn cfg file_paths tf_policy_path reward_only env).result
        = .ok (entries.filterMap (okEntry reward_only))) := by
  cases hb : runBody reward_only env with
  | error f =>
    exact Or.inl ⟨f, compileFn_result_error_of_body cfg file_paths
      tf_policy_path reward_only env harity f hb⟩
  | ok m =>
    obtain ⟨hsucc, entries, hlog, hpe⟩ := runBody_ok reward_only env m hb
    have hm := processEntries_ok_eq reward_only entries m hpe
    refine Or.inr ⟨entries, hlog, ?_⟩
    have hres := compileFn_result_ok_of_body cfg file_paths tf_policy_path
      reward_only env harity m hb
    rw [hres, hm]

/-- C6, witness: a mixed concrete container (one skipped key, one good
key), landing in the complete-ResultMap branch. -/
theorem claim_C6_witness :
    (∃ f, (compileFn ⟨"clang", none⟩ ["a.bc", "a.cmd"] "" true
        ⟨"/tmp/w", [], ProcOutcome.success,
         some [("k0", some noFeatureListsTrace),
               ("k1", some goodTrace)]⟩).result = .error f) ∨
    (∃ entries,
      RunEnv.logContent ⟨"/tmp/w", [], ProcOutcome.success,
         some [("k0", some noFeatureListsTrace), ("k1", some goodTrace)]⟩
        = some entries ∧
      (compileFn ⟨"clang", none⟩ ["a.bc", "a.cmd"] "" true
        ⟨"/tmp/w", [], ProcOutcome.success,
         some [("k0", some noFeatureListsTrace),
               ("k1", some goodTrace)]⟩).result
        = .ok (entries.filterMap (okEntry true))) :=
  claim_C6 ⟨"clang", none⟩ ["a.bc", "a.cmd"] "" true
    ⟨"/tmp/w", [], ProcOutcome.success,
     some [("k0", some noFeatureListsTrace), ("k1", some goodTrace)]⟩
    (by decide)

/-- C7: a decoded trace with no attached feature-list data is skipped: its
key never appears in the returned ResultMap, while the run continues and
every other key whose trace decodes and yields a reward does appear. -/
theorem claim_C7 (cfg : RunnerConfig) (file_paths : List String)
    (tf_policy_path : String) (reward_only : Bool) (env : RunEnv)
    (entries : List (String × Option SequenceExample)) (k : String)
    (e : SequenceExample)
    (m : List (String × (Option SequenceExample × Int)))
    (harity : file_paths.length = 3 ∨ file_paths.length = 2)
    (hlog : env.logContent = some entries)
    (hnodup : (entries.map Prod.fst).Nodup)
    (hmem : (k, some e) ∈ entries)
    (hfl : e.hasFeatureLists = false)
    (hok : (compileFn cfg file_paths tf_policy_path reward_only env).result
        = .ok m) :
    (∀ v, (k, v) ∉ m) ∧
    (∀ k2 e2 r2, (k2, some e2) ∈ entries → e2.hasFeatureLists = true →
      extractReward e2 = .ok r2 → ∃ v, (k2, v) ∈ m) := by
  have hbody := compileFn_result_ok cfg file_paths tf_policy_path reward_only
    env harity m hok
  obtain ⟨hsucc, entries2, hlog2, hpe⟩ := runBody_ok reward_only env m hbody
  rw [hlog] at hlog2
  have hent : entries2 = entries := by injection hlog2.symm
  rw [hent] at hpe
  have hm := processEntries_ok_eq reward_only entries m hpe
  constructor
  · intro v hv
    rw [hm] at hv
    obtain ⟨kv, hkv, hko⟩ := List.mem_filterMap.mp hv
    obtain ⟨k1, p⟩ := kv
    have hkey : k = k1 := okEntry_key reward_only (k1, p) (k, v) hko
    have hpay : p = some e := by
      apply nodupKeys_eq entries hnodup k p (some e) _ hmem
      rw [hkey]
      exact hkv
    rw [← hkey, hpay] at hko
    have hnone : okEntry reward_only (k, some e) = none := by
      unfold okEntry
      rw [decodeStep_skip reward_only k e hfl]
    rw [hnone] at hko
    cases hko
  · intro k2 e2 r2 hm2 hfl2 hr2
    cases hro : reward_only with
    | true =>
      refine ⟨(none, r2), ?_⟩
      rw [hro] at hm
      rw [hm]
      apply List.mem_filterMap.mpr
      refine ⟨(k2, some e2), hm2, ?_⟩
      unfold okEntry
      rw [decodeStep_rewardOnly k2 e2 r2 hfl2 hr2]
    | false =>
      refine ⟨(some (delReward e2), r2), ?_⟩
      rw [hro] at hm
      rw [hm]
      apply List.mem_filterMap.mpr
      refine ⟨(k2, some e2), hm2, ?_⟩
      unfold okEntry
      rw [decodeStep_full k2 e2 r2 hfl2 hr2]

/-- C7, witness: a container with one feature-less key (skipped) and one
good key (kept). -/
theorem claim_C7_witness :
    (∀ v, ("k0", v) ∉ [("k1", (some (delReward goodTrace), (7 : Int)))]) ∧
    (∀ k2 e2 r2,
      (k2, some e2) ∈ [("k0", some noFeatureListsTrace),
                       ("k1", some goodTrace)] →
      e2.hasFeatureLists = true → extractReward e2 = .ok r2 →
      ∃ v, (k2, v) ∈ [("k1", (some (delReward goodTrace), (7 : Int)))]) :=
  claim_C7 ⟨"clang", none⟩ ["a.bc", "a.cmd"] "" false
    ⟨"/tmp/w", [], ProcOutcome.success,
     some [("k0", some noFeatureListsTrace), ("k1", some goodTrace)]⟩
    [("k0", some noFeatureListsTrace), ("k1", some goodTrace)]
    "k0" noFeatureListsTrace
    [("k1", (some (delReward goodTrace), (7 : Int)))]
    (by decide) rfl (by decide) (by decide) (by decide) (by decide)

/-- C8: in reward-only mode, every entry of a returned ResultMap pairs an
absent trace (`none`) with the scalar reward — no key ever maps to a
decoded full trace. -/
theorem claim_C8 (cfg : RunnerConfig) (file_paths : List String)
    (tf_policy_path : String) (env : RunEnv) (k : String)
    (t : Option SequenceExample) (r : Int)
    (m : List (String × (Option SequenceExample × Int)))
    (harity : file_paths.length = 3 ∨ file_paths.length = 2)
    (hok : (compileFn cfg file_paths tf_policy_path true env).result
        = .ok m)
    (hmem : (k, (t, r)) ∈ m) : t = none := by
  have hbody := compileFn_result_ok cfg file_paths tf_policy_path true env
    harity m hok
  obtain ⟨hsucc, entries, hlog, hpe⟩ := runBody_ok true env m hbody
  have hm := processEntries_ok_eq true entries m hpe
  rw [hm] at hmem
  obtain ⟨kv, hkv, hko⟩ := List.mem_filterMap.mp hmem
  exact okEntry_rewardOnly_none kv (k, (t, r)) hko

/-- C8, witness: reward-only run over a concrete decodable container. -/
theorem claim_C8_witness : (none : Option SequenceExample) = none :=
  claim_C8 ⟨"clang", none⟩ ["a.bc", "a.cmd"] "" 
    ⟨"/tmp/w", [], ProcOutcome.success, some [("k", some goodTrace)]⟩
    "k" none 7 [("k", (none, (7 : Int)))]
    (by decide) (by decide) (by decide)

theorem isLogFlag_litA : isLogFlag "-mllvm" = false := by decide

theorem isLogFlag_litB : isLogFlag "-thinlto-assume-merged" = false := by
  decide

theorem isLogFlag_litC :
    isLogFlag "-regalloc-enable-advisor=development" = false := by decide

theorem isLogFlag_litD : isLogFlag "-o" = false := by decide

theorem isModelFlag_litA : isModelFlag "-mllvm" = false := by decide

theorem isModelFlag_litB : isModelFlag "-thinlto-assume-merged" = false := by
  decide

theorem isModelFlag_litC :
    isModelFlag "-regalloc-enable-advisor=development" = false := by decide

theorem isModelFlag_litD : isModelFlag "-o" = false := by decide

/-- C9: for any bundle arguments, clang path, launcher and output path that
are not themselves instrumentation flags (the bundling collaborator is an
opaque external convention), the assembled argument vector contains exactly
one log-output flag (`-regalloc-training-log=...`); it contains exactly one
policy flag (`-regalloc-model=...`) iff a (truthy) policy path is given;
and when a launcher is configured it is the first element, ahead of the
compiler binary and its arguments. -/
theorem claim_C9 (cfg : RunnerConfig) (bundleArgs : List String)
    (log_path output_native_path tf_policy_path : String)
    (hbundle : ∀ a ∈ bundleArgs, isLogFlag a = false ∧ isModelFlag a = false)
    (hclang1 : isLogFlag cfg.clang_path = false)
    (hclang2 : isModelFlag cfg.clang_path = false)
    (hlauncher : ∀ l, cfg.launcher_path = some l →
        isLogFlag l = false ∧ isModelFlag l = false)
    (hout1 : isLogFlag output_native_path = false)
    (hout2 : isModelFlag output_native_path = false) :
    (buildCommandLine cfg bundleArgs log_path output_native_path
        tf_policy_path).countP (fun s => isLogFlag s) = 1 ∧
    (buildCommandLine cfg bundleArgs log_path output_native_path
        tf_policy_path).countP (fun s => isModelFlag s)
      = (if tf_policy_path != "" then 1 else 0) ∧
    (∀ l, cfg.launcher_path = some l →
      (buildCommandLine cfg bundleArgs log_path output_native_path
        tf_policy_path).head? = some l) := by
  have hbl : bundleArgs.countP (fun s => isLogFlag s) = 0 :=
    List.countP_eq_zero.mpr (fun a ha => by simp [(hbundle a ha).1])
  have hbm : bundleArgs.countP (fun s => isModelFlag s) = 0 :=
    List.countP_eq_zero.mpr (fun a ha => by simp [(hbundle a ha).2])
  have hm1 : isLogFlag ("-regalloc-training-log=" ++ log_path) = true :=
    isLogFlag_own log_path
  have hm2 : isModelFlag ("-regalloc-training-log=" ++ log_path) = false :=
    isModelFlag_logArg log_path
  have hp1 : isModelFlag ("-regalloc-model=" ++ tf_policy_path) = true :=
    isModelFlag_own tf_policy_path
  have hp2 : isLogFlag ("-regalloc-model=" ++ tf_policy_path) = false :=
    isLogFlag_modelArg tf_policy_path
  refine ⟨?_, ?_, ?_⟩
  · cases hl : cfg.launcher_path with
    | none =>
      cases hpol : tf_policy_path != "" <;>
        simp [buildCommandLine, hl, hpol, List.countP_append,
          List.countP_cons, hbl, hclang1, hout1, hm1, hp2,
          isLogFlag_litA, isLogFlag_litB, isLogFlag_litC, isLogFlag_litD]
    | some l =>
      obtain ⟨hl1, hl2⟩ := hlauncher l hl
      cases hpol : tf_policy_path != "" <;>
        simp [buildCommandLine, hl, hpol, List.countP_append,
          List.countP_cons, hbl, hclang1, hout1, hm1, hp2, hl1,
          isLogFlag_litA, isLogFlag_litB, isLogFlag_litC, isLogFlag_litD]
  · cases hl : cfg.launcher_path with
    | none =>
      cases hpol : tf_policy_path != "" <;>
        simp [buildCommandLine, hl, hpol, List.countP_append,
          List.countP_cons, hbm, hclang2, hout2, hm2, hp1,
          isModelFlag_litA, isModelFlag_litB, isModelFlag_litC,
          isModelFlag_litD]
    | some l =>
      obtain ⟨hl1, hl2⟩ := hlauncher l hl
      cases hpol : tf_policy_path != "" <;>
        simp [buildCommandLine, hl, hpol, List.countP_append,
          List.countP_cons, hbm, hclang2, hout2, hm2, hp1, hl2,
          isModelFlag_litA, isModelFlag_litB, isModelFlag_litC,
          isModelFlag_litD]
  · intro l hlx
    cases hpol : tf_policy_path != "" <;>
      simp [buildCommandLine, hlx, hpol, List.append_assoc]

/-- C9, witness: concrete configuration with a launcher, one bundle
argument and a policy path. -/
theorem claim_C9_witness :
    (buildCommandLine ⟨"clang", some "qemu"⟩ ["x.cmd"] "/w/log" "/w/native"
        "/policy").countP (fun s => isLogFlag s) = 1 ∧
    (buildCommandLine ⟨"clang", some "qemu"⟩ ["x.cmd"] "/w/log" "/w/native"
        "/policy").countP (fun s => isModelFlag s)
      = (if ("/policy" : String) != "" then 1 else 0) ∧
    (∀ l, (RunnerConfig.mk "clang" (some "qemu")).launcher_path = some l →
      (buildCommandLine ⟨"clang", some "qemu"⟩ ["x.cmd"] "/w/log" "/w/native"
        "/policy").head? = some l) :=
  claim_C9 ⟨"clang", some "qemu"⟩ ["x.cmd"] "/w/log" "/w/native" "/policy"
    (by decide) (by decide) (by decide)
    (fun l hl => by
      injection hl with hl2
      rw [← hl2]
      exact ⟨by decide, by decide⟩)
    (by decide) (by decide)
